import Mathlib

/-!
Verification of the `escaper` crate (HTML entity encoding/decoding).

The definitions below are a shallow embedding of `src/decode.rs` and
`src/encode.rs`.  Machine integers (`u32`, `u8`) are modelled as `Nat`
with explicit bounds / `% 256`; fallible code returns `Except` or an
explicit result constructor.  The reader/writer pair of
`decode_html_rw` is modelled as a list of character-read results (a
read either yields a character or fails with a stream error, mirroring
`io_support::chars`) and an accumulating output character list (the
`Vec` sink used by the buffer-based wrappers never fails a write).
-/

/-- Error kinds of `DecodeErrKind` in `src/decode.rs`.  `IoError`
carries an `io::Error` payload in Rust; the payload is irrelevant to
every property here and equality on `DecodeErrKind` ignores it, so it
is modelled as a nullary constructor. -/
inductive DecodeErrKind where
  | UnknownEntity
  | MalformedNumEscape
  | InvalidCharacter
  | PrematureEnd
  | IoError
  | EncodingError
deriving DecidableEq, Repr

/-- `DecodeErr` from `src/decode.rs`: a position plus an error kind. -/
structure DecodeErr where
  position : Nat
  kind : DecodeErrKind
deriving DecidableEq, Repr

/-- The decoder states of `DecodeState` in `src/decode.rs`. -/
inductive DecodeState where
  | Normal
  | Entity
  | Named
  | Numeric
  | Hex
  | Dec
deriving DecidableEq, Repr

/-- Errors produced by the character-stream adapter `io_support::chars`
(`CharsError` in `src/io_support.rs`, whose source is not part of the
reviewed tree; modelled from the spec, which treats low-level
character-stream decoding as a primitive with a well-defined failure
mode for invalid encoding).  `Other` carries an `io::Error` payload in
Rust, irrelevant here. -/
inductive CharsError where
  | NotUtf8
  | Other
deriving DecidableEq, Repr

/-- `is_digit` from `src/decode.rs`. -/
def is_digit (c : Char) : Bool :=
  '0' ≤ c && c ≤ '9'

/-- `is_hex_digit` from `src/decode.rs`. -/
def is_hex_digit (c : Char) : Bool :=
  is_digit c || ('a' ≤ c && c ≤ 'f') || ('A' ≤ c && c ≤ 'F')

/-- Modelled from the spec: the Named-Entity Table of the external
`entities` crate (out of scope per the spec, "static named-entity
table ... a read-only lookup structure, queried by exact string
match").  A representative set of records; each key is the full
entity text including the leading `&` and trailing `;`, exactly as
stored in `entities::ENTITIES` and as looked up by `decode.rs`.
`&nosuchentity;` and `&Amp;` are not keys of the real table either. -/
def ENTITIES : List (String × String) :=
  [("&amp;", "&"), ("&quot;", "\x22"), ("&lt;", "<"), ("&gt;", ">"),
   ("&apos;", "\x27"), ("&nbsp;", "\xa0"), ("&copy;", "©")]

/-- `decode_named_entity` from `src/decode.rs`: exact-match lookup of
the full buffered entity text in the table. -/
def decode_named_entity (entity : String) : Except DecodeErrKind String :=
  match ENTITIES.find? (fun e => e.1 == entity) with
  | none => .error .UnknownEntity
  | some e => .ok e.2

/-- `u32::MAX`. -/
def U32_MAX : Nat := 4294967295

/-- `char::to_digit(radix)` as used by `u32::from_str_radix`: digit
value of `c` (`0-9`, `a-z`, `A-Z`), accepted only when below `radix`. -/
def char_to_digit (c : Char) (radix : Nat) : Option Nat :=
  let d? : Option Nat :=
    if '0' ≤ c && c ≤ '9' then some (c.toNat - '0'.toNat)
    else if 'a' ≤ c && c ≤ 'z' then some (c.toNat - 'a'.toNat + 10)
    else if 'A' ≤ c && c ≤ 'Z' then some (c.toNat - 'A'.toNat + 10)
    else none
  match d? with
  | some d => if d < radix then some d else none
  | none => none

/-- Digit-accumulation loop of `u32::from_str_radix` for the unsigned
type `u32`: `pos = true` accumulates with checked multiply-add, a
result above `u32::MAX` is an overflow error; `pos = false` (a leading
`-` sign on an unsigned parse) uses checked subtract, failing on any
digit that would take the value below zero. -/
def from_str_radix_go (pos : Bool) (radix : Nat) : Nat → List Char → Option Nat
  | acc, [] => some acc
  | acc, c :: cs =>
    match char_to_digit c radix with
    | none => none
    | some d =>
      if pos then
        let acc2 := acc * radix + d
        if acc2 ≤ U32_MAX then from_str_radix_go pos radix acc2 cs else none
      else
        let m := acc * radix
        if m ≤ U32_MAX && d ≤ m then from_str_radix_go pos radix (m - d) cs else none

/-- `u32::from_str_radix`: optional leading sign, then at least one
digit in the given radix; `none` models `Err(ParseIntError)`. -/
def from_str_radix (s : List Char) (radix : Nat) : Option Nat :=
  match s with
  | [] => none
  | '+' :: rest => if rest.isEmpty then none else from_str_radix_go true radix 0 rest
  | '-' :: rest => if rest.isEmpty then none else from_str_radix_go false radix 0 rest
  | _ => from_str_radix_go true radix 0 s

/-- `decode_numeric` from `src/decode.rs`: parse the digit text in the
given radix (`Err` → `MalformedNumEscape`), then map the integer to a
Unicode scalar value (`char::from_u32`; `None` → `InvalidCharacter`). -/
def decode_numeric (esc : List Char) (radix : Nat) : Except DecodeErrKind Char :=
  match from_str_radix esc radix with
  | some n => if Nat.isValidChar n then .ok (Char.ofNat n) else .error .InvalidCharacter
  | none => .error .MalformedNumEscape

/-- The mutable locals of one `decode_html_rw` invocation: current
state, `good_pos`, the pending buffer `buf`, and the characters
written to the output sink so far. -/
structure Cfg where
  state : DecodeState
  good_pos : Nat
  buf : List Char
  out : List Char
deriving DecidableEq, Repr

/-- Outcome of processing one character in `decode_html_rw`: continue
with updated locals, return an error, or panic (the byte slice
`&buf[1..]` in the `Dec`/`Hex` `;` arms is out of bounds when `buf` is
empty, which is reachable in sloppy mode after a recovery cleared the
buffer). -/
inductive StepRes where
  | cont (cfg : Cfg)
  | err (e : DecodeErr)
  | panicked
deriving DecidableEq, Repr

/-- One iteration of the `for (pos, c)` loop body of `decode_html_rw`
(`src/decode.rs` lines 117-194), including the trailing
`if state == Normal { good_pos = pos + 1 }`.  The match arms appear in
source order. -/
def step (sloppy : Bool) (cfg : Cfg) (pos : Nat) (c : Char) : StepRes :=
  let res : StepRes :=
    match cfg.state with
    | .Normal =>
      if c = '&' then .cont { cfg with state := .Entity, buf := cfg.buf ++ [c] }
      else .cont { cfg with out := cfg.out ++ [c] }
    | .Entity =>
      if c = '#' then .cont { cfg with state := .Numeric }
      else if c = ';' then
        if sloppy then .cont { cfg with buf := [] }
        else .err ⟨cfg.good_pos, .UnknownEntity⟩
      else .cont { cfg with state := .Named, buf := cfg.buf ++ [c] }
    | .Named =>
      if c = ';' then
        let buf2 := cfg.buf ++ [c]
        match decode_named_entity (String.mk buf2) with
        | .error reason =>
          if sloppy then .cont { cfg with state := .Normal, buf := [], out := cfg.out ++ buf2 }
          else .err ⟨cfg.good_pos, reason⟩
        | .ok res => .cont { cfg with state := .Normal, buf := [], out := cfg.out ++ res.data }
      else .cont { cfg with buf := cfg.buf ++ [c] }
    | .Numeric =>
      if is_digit c then .cont { cfg with state := .Dec, buf := cfg.buf ++ [c] }
      else if c = 'x' then .cont { cfg with state := .Hex }
      else if sloppy then .cont { cfg with buf := [] }
      else .err ⟨cfg.good_pos, .MalformedNumEscape⟩
    | .Dec =>
      if c = ';' then
        match cfg.buf with
        | [] => .panicked
        | _ :: rest =>
          match decode_numeric rest 10 with
          | .error reason => .err ⟨cfg.good_pos, reason⟩
          | .ok ch => .cont { cfg with state := .Normal, buf := [], out := cfg.out ++ [ch] }
      else if is_digit c then .cont { cfg with buf := cfg.buf ++ [c] }
      else if sloppy then .cont { cfg with buf := [] }
      else .err ⟨cfg.good_pos, .MalformedNumEscape⟩
    | .Hex =>
      if c = ';' then
        match cfg.buf with
        | [] => .panicked
        | _ :: rest =>
          match decode_numeric rest 16 with
          | .error reason => .err ⟨cfg.good_pos, reason⟩
          | .ok ch => .cont { cfg with state := .Normal, buf := [], out := cfg.out ++ [ch] }
      else if is_hex_digit c then .cont { cfg with buf := cfg.buf ++ [c] }
      else if sloppy then .cont { cfg with buf := [] }
      else .err ⟨cfg.good_pos, .MalformedNumEscape⟩
  match res with
  | .cont cfg2 =>
    .cont { cfg2 with good_pos := if cfg2.state = .Normal then pos + 1 else cfg2.good_pos }
  | other => other

/-- Result of a whole decode call: the decoded output, an error, or a
panic (never an error: Rust aborts). -/
inductive DecodeResult where
  | ok (s : String)
  | err (e : DecodeErr)
  | panicked
deriving DecidableEq, Repr

/-- The character loop of `decode_html_rw` over an infallible character
list, plus the end-of-input check (`src/decode.rs` lines 197-204). -/
def decodeLoop (sloppy : Bool) : List Char → Nat → Cfg → DecodeResult
  | [], _, cfg =>
    if cfg.state ≠ DecodeState.Normal ∧ sloppy = false then
      .err ⟨cfg.good_pos, .PrematureEnd⟩
    else .ok (String.mk cfg.out)
  | c :: cs, pos, cfg =>
    match step sloppy cfg pos c with
    | .cont cfg2 => decodeLoop sloppy cs (pos + 1) cfg2
    | .err e => .err e
    | .panicked => .panicked

/-- The character loop of `decode_html_rw` over the fallible character
stream produced by `io_support::chars(reader)`: a read failure is
translated to `EncodingError` / `IoError` at the current position
(`src/decode.rs` lines 103-116) before any state handling. -/
def decodeLoopRW (sloppy : Bool) : List (Except CharsError Char) → Nat → Cfg → DecodeResult
  | [], _, cfg =>
    if cfg.state ≠ DecodeState.Normal ∧ sloppy = false then
      .err ⟨cfg.good_pos, .PrematureEnd⟩
    else .ok (String.mk cfg.out)
  | item :: rest, pos, cfg =>
    match item with
    | .error e =>
      .err ⟨pos, match e with | .NotUtf8 => .EncodingError | .Other => .IoError⟩
    | .ok c =>
      match step sloppy cfg pos c with
      | .cont cfg2 => decodeLoopRW sloppy rest (pos + 1) cfg2
      | .err e => .err e
      | .panicked => .panicked

/-- Initial locals of `decode_html_rw`: state `Normal`, `good_pos = 0`,
empty buffer, nothing written. -/
def initCfg : Cfg := ⟨.Normal, 0, [], []⟩

/-- `decode_html_rw` from `src/decode.rs`. -/
def decode_html_rw (input : List (Except CharsError Char)) (sloppy : Bool) : DecodeResult :=
  decodeLoopRW sloppy input 0 initCfg

/-- `decode_html_buf` from `src/decode.rs`.  Modelled from the spec for
the stream setup: `io_support::chars` over a `Cursor` of the valid
UTF-8 bytes of a character list yields exactly those characters, each
read succeeding, and the `Vec` sink never fails a write. -/
def decode_html_buf (l : List Char) : DecodeResult :=
  decode_html_rw (l.map .ok) false

/-- `decode_html_buf_sloppy` from `src/decode.rs` (same modelling note
as `decode_html_buf`). -/
def decode_html_buf_sloppy (l : List Char) : DecodeResult :=
  decode_html_rw (l.map .ok) true

/-- `decode_html` from `src/decode.rs`: strict decode of a string. -/
def decode_html (s : String) : DecodeResult :=
  decode_html_buf s.data

/-- `decode_html_sloppy` from `src/decode.rs`. -/
def decode_html_sloppy (s : String) : DecodeResult :=
  decode_html_buf_sloppy s.data

/-- `MINIMAL_ENTITIES` from `src/lib.rs`: the 5-entry minimal escape
table, ordered by escaped character. -/
def MINIMAL_ENTITIES : List (Char × String) :=
  [('\x22', "&quot;"), ('&', "&amp;"), ('\x27', "&#x27;"), ('<', "&lt;"), ('>', "&gt;")]

/-- `get_entity` from `src/encode.rs`.  The source binary-searches the
sorted 5-entry array; on this duplicate-free table that returns
exactly the entry whose key equals `c`, modelled as first-match
lookup. -/
def get_entity (c : Char) : Option String :=
  match MINIMAL_ENTITIES.find? (fun p => p.1 == c) with
  | none => none
  | some p => some p.2

/-- The uppercase hex digit table `b"0123456789ABCDEF"` of `write_hex`
in `src/encode.rs`. -/
def HEX_DIGITS : List Char :=
  ['0', '1', '2', '3', '4', '5', '6', '7', '8', '9', 'A', 'B', 'C', 'D', 'E', 'F']

/-- `write_hex` from `src/encode.rs`: `&#x`, the two hex digits of
`c as u8` (the cast truncates to the low byte, i.e. `% 256`;
`(n & 0xF0) >> 4 = n / 16` and `n & 0x0F = n % 16`), then `;`. -/
def write_hex (c : Char) : List Char :=
  let n := c.toNat % 256
  ['&', '#', 'x', HEX_DIGITS.getD (n / 16) '0', HEX_DIGITS.getD (n % 16) '0', ';']

/-- `is_ascii_alnum` from `src/encode.rs`. -/
def is_ascii_alnum (c : Char) : Bool :=
  ('a' ≤ c && c ≤ 'z') || ('A' ≤ c && c ≤ 'Z') || ('0' ≤ c && c ≤ '9')

/-- Per-character output of the loop body of `encode_minimal_w` in
`src/encode.rs`. -/
def encode_minimal_char (c : Char) : List Char :=
  match get_entity c with
  | none => [c]
  | some entity => entity.data

/-- `encode_minimal` from `src/encode.rs` (the `Vec` writer never
fails, so the writer variant reduces to concatenating the
per-character outputs). -/
def encode_minimal (s : String) : String :=
  String.mk (s.data.flatMap encode_minimal_char)

/-- Per-character output of the loop body of `encode_attribute_w` in
`src/encode.rs` (`b = c as usize` is the full code point). -/
def encode_attribute_char (c : Char) : List Char :=
  let b := c.toNat
  match get_entity c with
  | some entity => entity.data
  | none =>
    if b < 256 && (127 < b || !is_ascii_alnum c) then write_hex c else [c]

/-- `encode_attribute` from `src/encode.rs`. -/
def encode_attribute (s : String) : String :=
  String.mk (s.data.flatMap encode_attribute_char)

/-- Configuration reached after consuming `n` characters of input `l`
from the initial configuration (`none` when the run errors, panics or
the input is exhausted before `n`). -/
def cfgAfter (sloppy : Bool) (l : List Char) : Nat → Option Cfg
  | 0 => some initCfg
  | n + 1 =>
    match cfgAfter sloppy l n with
    | some cfg =>
      match l.get? n with
      | some c =>
        match step sloppy cfg n c with
        | .cont cfg2 => some cfg2
        | _ => none
      | none => none
    | none => none

/-! ### Helper lemmas about one step of the decode loop -/

theorem decode_named_entity_err {s : String} {k : DecodeErrKind}
    (h : decode_named_entity s = .error k) : k = .UnknownEntity := by
  unfold decode_named_entity at h
  split at h <;> simp_all

theorem decode_numeric_err {esc : List Char} {r : Nat} {k : DecodeErrKind}
    (h : decode_numeric esc r = .error k) :
    k = .MalformedNumEscape ∨ k = .InvalidCharacter := by
  unfold decode_numeric at h
  split at h <;> try split at h
  all_goals simp_all

theorem step_err {sloppy : Bool} {cfg : Cfg} {pos : Nat} {c : Char} {e : DecodeErr}
    (h : step sloppy cfg pos c = .err e) :
    e.position = cfg.good_pos ∧ cfg.state ≠ .Normal ∧
      (e.kind = .UnknownEntity ∨ e.kind = .MalformedNumEscape ∨ e.kind = .InvalidCharacter) := by
  rcases cfg with ⟨st, g, buf, out⟩
  unfold step at h
  cases st <;> dsimp only at h
  all_goals repeat' split at h
  all_goals try exact StepRes.noConfusion h
  all_goals injection h with h1
  all_goals subst h1
  all_goals refine ⟨rfl, by simp, ?_⟩
  all_goals try simp
  all_goals try (rename_i heq hs; exact Or.inl (decode_named_entity_err heq))
  all_goals (rename_i heq; exact Or.inr (decode_numeric_err heq))

theorem step_normal (sloppy : Bool) (g : Nat) (buf out : List Char) (pos : Nat) (c : Char) :
    step sloppy ⟨.Normal, g, buf, out⟩ pos c =
      if c = '&' then .cont ⟨.Entity, g, buf ++ [c], out⟩
      else .cont ⟨.Normal, pos + 1, buf, out ++ [c]⟩ := by
  by_cases h1 : c = '&' <;> simp [step, h1]

theorem step_entity (sloppy : Bool) (g : Nat) (buf out : List Char) (pos : Nat) (c : Char) :
    step sloppy ⟨.Entity, g, buf, out⟩ pos c =
      if c = '#' then .cont ⟨.Numeric, g, buf, out⟩
      else if c = ';' then
        (if sloppy then .cont ⟨.Entity, g, [], out⟩ else .err ⟨g, .UnknownEntity⟩)
      else .cont ⟨.Named, g, buf ++ [c], out⟩ := by
  by_cases h1 : c = '#' <;> by_cases h2 : c = ';' <;> cases sloppy <;> simp [step, h1, h2]

theorem step_named (sloppy : Bool) (g : Nat) (buf out : List Char) (pos : Nat) (c : Char) :
    step sloppy ⟨.Named, g, buf, out⟩ pos c =
      if c = ';' then
        match decode_named_entity (String.mk (buf ++ [c])) with
        | .error reason =>
          if sloppy then .cont ⟨.Normal, pos + 1, [], out ++ (buf ++ [c])⟩
          else .err ⟨g, reason⟩
        | .ok r => .cont ⟨.Normal, pos + 1, [], out ++ r.data⟩
      else .cont ⟨.Named, g, buf ++ [c], out⟩ := by
  by_cases h1 : c = ';'
  · subst h1
    cases hd : decode_named_entity (String.mk (buf ++ [';'])) <;> cases sloppy <;>
      simp [step, hd]
  · simp [step, h1]

theorem step_numeric (sloppy : Bool) (g : Nat) (buf out : List Char) (pos : Nat) (c : Char) :
    step sloppy ⟨.Numeric, g, buf, out⟩ pos c =
      if is_digit c then .cont ⟨.Dec, g, buf ++ [c], out⟩
      else if c = 'x' then .cont ⟨.Hex, g, buf, out⟩
      else if sloppy then .cont ⟨.Numeric, g, [], out⟩
      else .err ⟨g, .MalformedNumEscape⟩ := by
  by_cases h1 : is_digit c
  · simp [step, h1]
  · by_cases h2 : c = 'x'
    · subst h2
      simp [step, (by decide : is_digit 'x' = false)]
    · cases sloppy <;> simp [step, h1, h2]

theorem step_dec (sloppy : Bool) (g : Nat) (buf out : List Char) (pos : Nat) (c : Char) :
    step sloppy ⟨.Dec, g, buf, out⟩ pos c =
      if c = ';' then
        match buf with
        | [] => .panicked
        | _ :: rest =>
          match decode_numeric rest 10 with
          | .error reason => .err ⟨g, reason⟩
          | .ok ch => .cont ⟨.Normal, pos + 1, [], out ++ [ch]⟩
      else if is_digit c then .cont ⟨.Dec, g, buf ++ [c], out⟩
      else if sloppy then .cont ⟨.Dec, g, [], out⟩
      else .err ⟨g, .MalformedNumEscape⟩ := by
  by_cases h1 : c = ';'
  · cases buf with
    | nil => simp [step, h1]
    | cons b rest =>
      cases hd : decode_numeric rest 10 <;> simp [step, h1, hd]
  · by_cases h2 : is_digit c
    · simp [step, h1, h2]
    · cases sloppy <;> simp [step, h1, h2]

theorem step_hex (sloppy : Bool) (g : Nat) (buf out : List Char) (pos : Nat) (c : Char) :
    step sloppy ⟨.Hex, g, buf, out⟩ pos c =
      if c = ';' then
        match buf with
        | [] => .panicked
        | _ :: rest =>
          match decode_numeric rest 16 with
          | .error reason => .err ⟨g, reason⟩
          | .ok ch => .cont ⟨.Normal, pos + 1, [], out ++ [ch]⟩
      else if is_hex_digit c then .cont ⟨.Hex, g, buf ++ [c], out⟩
      else if sloppy then .cont ⟨.Hex, g, [], out⟩
      else .err ⟨g, .MalformedNumEscape⟩ := by
  by_cases h1 : c = ';'
  · cases buf with
    | nil => simp [step, h1]
    | cons b rest =>
      cases hd : decode_numeric rest 16 <;> simp [step, h1, hd]
  · by_cases h2 : is_hex_digit c
    · simp [step, h1, h2]
    · cases sloppy <;> simp [step, h1, h2]

theorem step_err_sloppy {cfg : Cfg} {pos : Nat} {c : Char} {e : DecodeErr}
    (h : step true cfg pos c = .err e) :
    e.kind = .MalformedNumEscape ∨ e.kind = .InvalidCharacter := by
  rcases cfg with ⟨st, g, buf, out⟩
  unfold step at h
  cases st <;> dsimp only at h
  all_goals repeat' split at h
  all_goals try exact StepRes.noConfusion h
  all_goals try (rename_i hs; exact absurd rfl hs)
  all_goals injection h with h1
  all_goals subst h1
  all_goals rename_i heq
  all_goals exact decode_numeric_err heq

theorem step_cont_good_pos {sloppy : Bool} {cfg : Cfg} {pos : Nat} {c : Char} {cfg2 : Cfg}
    (h : step sloppy cfg pos c = .cont cfg2) :
    cfg2.good_pos = if cfg2.state = .Normal then pos + 1 else cfg.good_pos := by
  rcases cfg with ⟨st, g, buf, out⟩
  cases st <;>
    first
      | rw [step_normal] at h
      | rw [step_entity] at h
      | rw [step_named] at h
      | rw [step_numeric] at h
      | rw [step_dec] at h
      | rw [step_hex] at h
  all_goals repeat' split at h
  all_goals try exact StepRes.noConfusion h
  all_goals injection h with h1
  all_goals subst h1
  all_goals simp

theorem step_normal_amp {sloppy : Bool} {g : Nat} {buf out : List Char} {pos : Nat}
    {c : Char} {cfg2 : Cfg}
    (h : step sloppy ⟨.Normal, g, buf, out⟩ pos c = .cont cfg2)
    (h2 : cfg2.state ≠ .Normal) : c = '&' ∧ cfg2.good_pos = g := by
  rw [step_normal] at h
  split at h
  · injection h with h1
    subst h1
    rename_i hc
    exact ⟨hc, rfl⟩
  · injection h with h1
    subst h1
    simp at h2

/-- Bridging lemma: a read of a valid in-memory buffer never fails, so
the loop over the fallible stream of an all-`ok` input agrees with the
loop over the plain character list. -/
theorem decodeLoopRW_map_ok (sloppy : Bool) :
    ∀ (l : List Char) (pos : Nat) (cfg : Cfg),
      decodeLoopRW sloppy (l.map Except.ok) pos cfg = decodeLoop sloppy l pos cfg
  | [], _, _ => rfl
  | c :: cs, pos, cfg => by
    simp only [List.map, decodeLoopRW, decodeLoop]
    cases h : step sloppy cfg pos c <;> simp [decodeLoopRW_map_ok sloppy cs]

/-! ### The `good_pos` invariant of the decode loop -/

/-- Invariant of the decode loop relating the locals after consuming
`n` characters of input `l`: `good_pos` never exceeds the number of
consumed characters, equals it exactly while the state is `Normal`,
and, while an entity is pending, marks the position of the `&` that
opened it. -/
def CfgInv (l : List Char) (n : Nat) (cfg : Cfg) : Prop :=
  cfg.good_pos ≤ n ∧ (cfg.state = .Normal → cfg.good_pos = n) ∧
    (cfg.state ≠ .Normal → l[cfg.good_pos]? = some '&')

theorem cfgInv_init (l : List Char) : CfgInv l 0 initCfg :=
  ⟨Nat.le_refl 0, fun _ => rfl, fun h => absurd rfl h⟩

theorem step_preserves_inv {sloppy : Bool} {l : List Char} {n : Nat} {cfg : Cfg}
    {c : Char} {cfg2 : Cfg} (hc : l[n]? = some c)
    (hinv : CfgInv l n cfg) (h : step sloppy cfg n c = .cont cfg2) :
    CfgInv l (n + 1) cfg2 := by
  obtain ⟨h1, h2, h3⟩ := hinv
  have hg := step_cont_good_pos h
  by_cases hn : cfg2.state = .Normal
  · rw [if_pos hn] at hg
    exact ⟨Nat.le_of_eq hg, fun _ => hg, fun hh => absurd hn hh⟩
  · rw [if_neg hn] at hg
    refine ⟨by omega, fun hh => absurd hh hn, fun _ => ?_⟩
    by_cases hsn : cfg.state = .Normal
    · rcases cfg with ⟨st, g, buf, out⟩
      dsimp only at hsn
      subst hsn
      obtain ⟨hamp, _⟩ := step_normal_amp h hn
      have hgn : g = n := h2 rfl
      rw [hg]
      dsimp only
      rw [hgn, hc, hamp]
    · rw [hg]
      exact h3 hsn

theorem cfgAfter_inv (sloppy : Bool) (l : List Char) :
    ∀ (n : Nat) (cfg : Cfg), cfgAfter sloppy l n = some cfg → CfgInv l n cfg
  | 0, cfg, h => by
    simp only [cfgAfter] at h
    injection h with h1
    subst h1
    exact cfgInv_init l
  | n + 1, cfg, h => by
    simp only [cfgAfter] at h
    cases ha : cfgAfter sloppy l n <;> rw [ha] at h
    · cases h
    case some cfg1 =>
      cases hc : l.get? n <;> rw [hc] at h <;> dsimp only at h
      · cases h
      case some c =>
        cases hs : step sloppy cfg1 n c <;> rw [hs] at h <;> cases h
        case cont =>
          have hc2 : l[n]? = some c := by simpa using hc
          exact step_preserves_inv hc2 (cfgAfter_inv sloppy l n cfg1 ha) hs

/-- If the decode loop, resumed at position `n` in a configuration
satisfying the invariant, returns an error of one of the parse kinds,
the reported position is occupied by the `&` that opened the offending
entity. -/
theorem decodeLoop_err_amp {sloppy : Bool} (l : List Char) :
    ∀ (l2 : List Char) (n : Nat) (cfg : Cfg) (e : DecodeErr),
      CfgInv l n cfg → l.drop n = l2 →
      decodeLoop sloppy l2 n cfg = .err e → l[e.position]? = some '&'
  | [], n, cfg, e, hinv, _, h => by
    simp only [decodeLoop] at h
    split at h
    · injection h with h1
      subst h1
      rename_i hcond
      exact hinv.2.2 hcond.1
    · cases h
  | c :: cs, n, cfg, e, hinv, hdrop, h => by
    have hc : l[n]? = some c := by
      have := List.getElem?_drop l n 0
      rw [hdrop] at this
      simpa using this.symm
    simp only [decodeLoop] at h
    cases hs : step sloppy cfg n c <;> rw [hs] at h <;> try cases h
    case cont cfg2 =>
      have hdrop2 : l.drop (n + 1) = cs := by
        rw [← List.drop_drop, hdrop]
        rfl
      exact decodeLoop_err_amp l cs (n + 1) cfg2 _
        (step_preserves_inv hc hinv hs) hdrop2 h
    case err =>
      obtain ⟨hp, hst, _⟩ := step_err hs
      rw [hp]
      exact hinv.2.2 hst

/-! ### Error kinds reachable from the loops -/

theorem decodeLoop_err_kind {sloppy : Bool} :
    ∀ (l : List Char) (pos : Nat) (cfg : Cfg) (e : DecodeErr),
      decodeLoop sloppy l pos cfg = .err e →
      e.kind = .UnknownEntity ∨ e.kind = .MalformedNumEscape ∨
        e.kind = .InvalidCharacter ∨ e.kind = .PrematureEnd
  | [], pos, cfg, e, h => by
    simp only [decodeLoop] at h
    split at h
    · injection h with h1
      subst h1
      simp
    · cases h
  | c :: cs, pos, cfg, e, h => by
    simp only [decodeLoop] at h
    cases hs : step sloppy cfg pos c <;> rw [hs] at h <;> try cases h
    case cont cfg2 => exact decodeLoop_err_kind cs (pos + 1) cfg2 _ h
    case err =>
      rcases (step_err hs).2.2 with hk | hk | hk <;> simp [hk]

theorem decodeLoopRW_sloppy_err :
    ∀ (l : List (Except CharsError Char)) (pos : Nat) (cfg : Cfg) (e : DecodeErr),
      decodeLoopRW true l pos cfg = .err e →
      e.kind ≠ .UnknownEntity ∧ e.kind ≠ .PrematureEnd
  | [], pos, cfg, e, h => by
    simp only [decodeLoopRW] at h
    split at h
    · rename_i hcond
      exact absurd hcond.2 (by simp)
    · cases h
  | item :: rest, pos, cfg, e, h => by
    simp only [decodeLoopRW] at h
    cases item with
    | error ce =>
      dsimp only at h
      cases h
      cases ce <;> simp
    | ok c =>
      dsimp only at h
      cases hs : step true cfg pos c <;> rw [hs] at h <;> try cases h
      case cont cfg2 => exact decodeLoopRW_sloppy_err rest (pos + 1) cfg2 _ h
      case err.refl =>
        rcases step_err_sloppy hs with hk | hk <;> simp [hk]

/-! ### Decoding text that contains no ampersand, and identity encodes -/

theorem decodeLoop_no_amp (sloppy : Bool) :
    ∀ (l : List Char), (∀ c ∈ l, c ≠ '&') → ∀ (pos g : Nat) (buf out : List Char),
      decodeLoop sloppy l pos ⟨.Normal, g, buf, out⟩ = .ok (String.mk (out ++ l))
  | [], _, pos, g, buf, out => by simp [decodeLoop]
  | c :: cs, h, pos, g, buf, out => by
    have hc : c ≠ '&' := h c (List.mem_cons_self c cs)
    simp only [decodeLoop]
    rw [step_normal, if_neg hc]
    dsimp only
    rw [decodeLoop_no_amp sloppy cs (fun x hx => h x (List.mem_cons_of_mem c hx))]
    simp

/-- The minimal escape set: the characters `encode_minimal` replaces. -/
def minimal_escaped (c : Char) : Bool :=
  (get_entity c).isSome

/-- The attribute escape set: the characters `encode_attribute`
replaces (table hit, or Latin-1 non-alphanumeric hex escape). -/
def attribute_escaped (c : Char) : Bool :=
  minimal_escaped c || (c.toNat < 256 && (127 < c.toNat || !is_ascii_alnum c))

theorem encode_minimal_char_id {c : Char} (h : minimal_escaped c = false) :
    encode_minimal_char c = [c] := by
  unfold minimal_escaped at h
  unfold encode_minimal_char
  cases hg : get_entity c
  · rfl
  · rw [hg] at h
    cases h

theorem encode_attribute_char_id {c : Char} (h : attribute_escaped c = false) :
    encode_attribute_char c = [c] := by
  unfold attribute_escaped minimal_escaped at h
  rw [Bool.or_eq_false_iff] at h
  obtain ⟨h1, h2⟩ := h
  unfold encode_attribute_char
  cases hg : get_entity c
  · dsimp only
    rw [h2]
    simp
  · rw [hg] at h1
    cases h1

theorem not_escaped_ne_amp {c : Char} (h : minimal_escaped c = false) : c ≠ '&' := by
  intro hc
  subst hc
  cases h

theorem flatMap_id_of_id {f : Char → List Char} :
    ∀ (l : List Char), (∀ c ∈ l, f c = [c]) → l.flatMap f = l
  | [], _ => rfl
  | c :: cs, h => by
    simp only [List.flatMap_cons, h c (List.mem_cons_self c cs)]
    rw [flatMap_id_of_id cs (fun x hx => h x (List.mem_cons_of_mem c hx))]
    rfl

/-! ### Claim theorems -/

/-- C1 counterexample: sloppy decode of `"&#x;"` returns an error of kind
`MalformedNumEscape` (the numeric resolution performed at `;` in the `Hex`
state is not suppressed by sloppy mode), so sloppy decode can return
`MalformedNumEscape`, contrary to the claim. -/
theorem sloppy_malformed_num_escape_counterexample :
    decode_html_sloppy "&#x;" = .err ⟨0, .MalformedNumEscape⟩ := by rfl

/-- C1 (amended): sloppy-mode decode never returns an error of kind
`UnknownEntity` or `PrematureEnd`; however, the numeric resolution at `;`
can still return `MalformedNumEscape` or `InvalidCharacter` even in sloppy
mode. -/
theorem sloppy_no_unknown_entity_or_premature_end
    (input : List (Except CharsError Char)) (e : DecodeErr)
    (h : decode_html_rw input true = .err e) :
    e.kind ≠ .UnknownEntity ∧ e.kind ≠ .PrematureEnd :=
  decodeLoopRW_sloppy_err input 0 initCfg e h

/-- Witness for C1: the theorem applied at the concrete erroring input
`"&#x;"`. -/
theorem sloppy_no_unknown_entity_or_premature_end_witness :
    (⟨0, DecodeErrKind.MalformedNumEscape⟩ : DecodeErr).kind ≠ DecodeErrKind.UnknownEntity ∧
      (⟨0, DecodeErrKind.MalformedNumEscape⟩ : DecodeErr).kind ≠ DecodeErrKind.PrematureEnd :=
  sloppy_no_unknown_entity_or_premature_end (("&#x;".data).map Except.ok)
    ⟨0, .MalformedNumEscape⟩ (by rfl)

/-- C2 counterexample: sloppy decode of `"&;ab"` yields `""`, not `"ab"`:
after the empty entity `&;` the machine does not return to `Normal`, so
the following literal characters are not emitted verbatim. -/
theorem empty_entity_sloppy_counterexample :
    decode_html_sloppy "&;ab" = .ok "" ∧ decode_html_sloppy "&;ab" ≠ .ok "ab" :=
  ⟨by rfl, by decide⟩

/-- C2 (amended): on `;` in the `Entity` state (the empty entity `&;`), in
sloppy mode the pending buffer is discarded but the machine stays in the
`Entity` state (it does not return to `Normal`; subsequent characters are
treated as entity-name characters, so sloppy decode of `"&;ab"` yields
`""`); in strict mode the call fails with `UnknownEntity` at the last good
position. -/
theorem empty_entity_behavior :
    (∀ (sloppy : Bool) (g pos : Nat) (buf out : List Char),
      step sloppy ⟨.Entity, g, buf, out⟩ pos ';' =
        if sloppy then .cont ⟨.Entity, g, [], out⟩
        else .err ⟨g, .UnknownEntity⟩) ∧
    decode_html_sloppy "&;ab" = .ok "" := by
  refine ⟨?_, by rfl⟩
  intro sloppy g pos buf out
  rw [step_entity]
  simp

/-- C3 counterexample: sloppy decode of `"&#!a"` yields `""`, not `"a"`:
after the malformed numeric escape is discarded, the machine does not
treat subsequent input as literal text. -/
theorem malformed_numeric_sloppy_counterexample :
    decode_html_sloppy "&#!a" = .ok "" ∧ decode_html_sloppy "&#!a" ≠ .ok "a" :=
  ⟨by rfl, by decide⟩

/-- C3 (amended): on a character that is neither a valid continuation
digit nor `;` in state `Numeric`, `Hex` or `Dec`: sloppy mode discards
the buffer but remains in the same state (subsequent input keeps being
consumed by the numeric-escape states, not treated as literal text);
strict mode fails with `MalformedNumEscape` at the last good position. -/
theorem malformed_numeric_behavior (sloppy : Bool) (st : DecodeState) (g pos : Nat)
    (buf out : List Char) (c : Char)
    (h : (st = .Numeric ∧ is_digit c = false ∧ c ≠ 'x') ∨
         (st = .Dec ∧ c ≠ ';' ∧ is_digit c = false) ∨
         (st = .Hex ∧ c ≠ ';' ∧ is_hex_digit c = false)) :
    step sloppy ⟨st, g, buf, out⟩ pos c =
      if sloppy then .cont ⟨st, g, [], out⟩
      else .err ⟨g, .MalformedNumEscape⟩ := by
  rcases h with ⟨h1, h2, h3⟩ | ⟨h1, h2, h3⟩ | ⟨h1, h2, h3⟩ <;> subst h1
  · rw [step_numeric]
    simp [h2, h3]
  · rw [step_dec]
    simp [h2, h3]
  · rw [step_hex]
    simp [h2, h3]

/-- Witness for C3: the theorem applied in the `Numeric` state at the
concrete non-digit character `!` in sloppy mode. -/
theorem malformed_numeric_behavior_witness :
    step true ⟨.Numeric, 0, ['&'], []⟩ 2 '!' = .cont ⟨.Numeric, 0, [], []⟩ := by
  have := malformed_numeric_behavior true .Numeric 0 2 ['&'] [] '!'
    (Or.inl ⟨rfl, by decide, by decide⟩)
  simpa using this

/-- C4: numeric escape resolution.  On `;` in state `Dec` (`Hex`), the
accumulated digits after the buffered `&` are parsed in radix 10 (16) as
a `u32`; a parse failure, including overflow past `u32::MAX`, yields
`MalformedNumEscape`, an integer that is not a valid Unicode scalar
value yields `InvalidCharacter`, and otherwise the resolved character is
emitted.  Strict decode of `"&#65;"` and `"&#x41;"` gives `"A"` (hex
digits case-insensitive: `"&#x4a;"` and `"&#x4A;"` both give `"J"`), and
`"&#xffffffff;"` fails with `InvalidCharacter`. -/
theorem numeric_escape_resolution :
    (∀ (sloppy : Bool) (g pos : Nat) (ds out : List Char),
      step sloppy ⟨.Dec, g, '&' :: ds, out⟩ pos ';' =
        match from_str_radix ds 10 with
        | none => .err ⟨g, .MalformedNumEscape⟩
        | some n =>
          if Nat.isValidChar n then .cont ⟨.Normal, pos + 1, [], out ++ [Char.ofNat n]⟩
          else .err ⟨g, .InvalidCharacter⟩) ∧
    (∀ (sloppy : Bool) (g pos : Nat) (ds out : List Char),
      step sloppy ⟨.Hex, g, '&' :: ds, out⟩ pos ';' =
        match from_str_radix ds 16 with
        | none => .err ⟨g, .MalformedNumEscape⟩
        | some n =>
          if Nat.isValidChar n then .cont ⟨.Normal, pos + 1, [], out ++ [Char.ofNat n]⟩
          else .err ⟨g, .InvalidCharacter⟩) ∧
    decode_html "&#65;" = .ok "A" ∧
    decode_html "&#x41;" = .ok "A" ∧
    decode_html "&#x4a;" = .ok "J" ∧
    decode_html "&#x4A;" = .ok "J" ∧
    from_str_radix "4294967296".data 10 = none ∧
    decode_html "&#xffffffff;" = .err ⟨0, .InvalidCharacter⟩ := by
  refine ⟨?_, ?_, by rfl, by rfl, by rfl, by rfl, by rfl, by rfl⟩
  · intro sloppy g pos ds out
    rw [step_dec]
    simp only [if_pos rfl]
    unfold decode_numeric
    cases hf : from_str_radix ds 10
    · simp
    · rename_i n
      by_cases hv : Nat.isValidChar n <;> simp [hv]
  · intro sloppy g pos ds out
    rw [step_hex]
    simp only [if_pos rfl]
    unfold decode_numeric
    cases hf : from_str_radix ds 16
    · simp
    · rename_i n
      by_cases hv : Nat.isValidChar n <;> simp [hv]

/-- C5: named entity resolution.  On `;` in the `Named` state the full
buffered text, including the leading `&` and the appended `;`, is looked
up as the literal key in the named-entity table (exact, case-sensitive
match); on success the replacement is emitted, the buffer cleared, and
the machine returns to `Normal`.  Strict decode of `"&amp;"` is `"&"`
and of `"&nosuchentity;"` fails with `UnknownEntity` (and the
case-mismatched `"&Amp;"` is not found). -/
theorem named_entity_resolution :
    (∀ (sloppy : Bool) (g pos : Nat) (buf out : List Char),
      step sloppy ⟨.Named, g, buf, out⟩ pos ';' =
        match decode_named_entity (String.mk (buf ++ [';'])) with
        | .error k =>
          if sloppy then .cont ⟨.Normal, pos + 1, [], out ++ (buf ++ [';'])⟩
          else .err ⟨g, k⟩
        | .ok r => .cont ⟨.Normal, pos + 1, [], out ++ r.data⟩) ∧
    decode_named_entity "&amp;" = .ok "&" ∧
    decode_named_entity "&Amp;" = .error .UnknownEntity ∧
    decode_named_entity "&nosuchentity;" = .error .UnknownEntity ∧
    decode_html "&amp;" = .ok "&" ∧
    decode_html "&nosuchentity;" = .err ⟨0, .UnknownEntity⟩ := by
  refine ⟨?_, by rfl, by rfl, by rfl, by rfl, by rfl⟩
  intro sloppy g pos buf out
  rw [step_named]
  simp

/-- C6: end of input in a non-`Normal` state: strict mode fails with
`PrematureEnd` at `good_pos`, sloppy mode completes successfully,
dropping the incomplete trailing fragment; in particular strict decode of
`"&amp"` fails with `PrematureEnd` and sloppy decode of it returns `""`. -/
theorem premature_end_behavior :
    (∀ (pos : Nat) (cfg : Cfg), cfg.state ≠ .Normal →
      decodeLoop false [] pos cfg = .err ⟨cfg.good_pos, .PrematureEnd⟩ ∧
      decodeLoop true [] pos cfg = .ok (String.mk cfg.out)) ∧
    decode_html "&amp" = .err ⟨0, .PrematureEnd⟩ ∧
    decode_html_sloppy "&amp" = .ok "" := by
  refine ⟨?_, by rfl, by rfl⟩
  intro pos cfg h
  constructor
  · simp [decodeLoop, h]
  · simp [decodeLoop]

/-- Witness for C6: the end-of-input rule applied at the concrete
configuration reached after strict-decoding the input `"&amp"`. -/
theorem premature_end_behavior_witness :
    decodeLoop false [] 4 ⟨.Named, 0, ['&', 'a', 'm', 'p'], []⟩ =
      .err ⟨0, .PrematureEnd⟩ ∧
    decodeLoop true [] 4 ⟨.Named, 0, ['&', 'a', 'm', 'p'], []⟩ =
      .ok (String.mk []) :=
  premature_end_behavior.1 4 ⟨.Named, 0, ['&', 'a', 'm', 'p'], []⟩ (by decide)

/-- C7: `good_pos` is advanced to one past the character just processed
exactly when the state is `Normal` after processing it; it never exceeds
the number of consumed characters; and every strict-mode parse error of
kind `UnknownEntity`, `MalformedNumEscape` or `PrematureEnd` reports the
position of the `&` that opened the offending entity. -/
theorem good_pos_invariant :
    (∀ (sloppy : Bool) (cfg : Cfg) (pos : Nat) (c : Char) (cfg2 : Cfg),
      step sloppy cfg pos c = .cont cfg2 →
      cfg2.good_pos = if cfg2.state = .Normal then pos + 1 else cfg.good_pos) ∧
    (∀ (sloppy : Bool) (l : List Char) (n : Nat) (cfg : Cfg),
      cfgAfter sloppy l n = some cfg → cfg.good_pos ≤ n) ∧
    (∀ (l : List Char) (e : DecodeErr),
      decode_html_buf l = .err e →
      (e.kind = .UnknownEntity ∨ e.kind = .MalformedNumEscape ∨ e.kind = .PrematureEnd) →
      l[e.position]? = some '&') := by
  refine ⟨?_, ?_, ?_⟩
  · intro sloppy cfg pos c cfg2 h
    exact step_cont_good_pos h
  · intro sloppy l n cfg h
    exact (cfgAfter_inv sloppy l n cfg h).1
  · intro l e h _
    unfold decode_html_buf decode_html_rw at h
    rw [decodeLoopRW_map_ok] at h
    exact decodeLoop_err_amp l l 0 initCfg e (cfgInv_init l) rfl h

/-- Witness for C7: each conjunct applied at concrete inputs — the step
on `&` from the initial configuration, the configuration after one
consumed character of `"&"`, and the strict error on `"x&nope;"`, which
reports position 1, the position of `&`. -/
theorem good_pos_invariant_witness :
    ((⟨.Entity, 0, ['&'], []⟩ : Cfg).good_pos = 0) ∧
    ((⟨.Entity, 0, ['&'], []⟩ : Cfg).good_pos ≤ 1) ∧
    ("x&nope;".data)[1]? = some '&' := by
  refine ⟨?_, ?_, ?_⟩
  · exact (good_pos_invariant.1 false initCfg 0 '&' ⟨.Entity, 0, ['&'], []⟩ (by rfl)).trans
      (by simp [initCfg])
  · exact good_pos_invariant.2.1 false ['&'] 1 ⟨.Entity, 0, ['&'], []⟩ (by rfl)
  · exact good_pos_invariant.2.2 ("x&nope;".data) ⟨1, .UnknownEntity⟩ (by rfl) (by simp)

/-- C8: round-trip.  For every text whose characters all lie outside
both escape sets (the minimal table and the attribute hex-escape
range), strict decode inverts both encoders:
`decode_html (encode_minimal s) = s` and
`decode_html (encode_attribute s) = s`. -/
theorem round_trip (s : String)
    (h : ∀ c ∈ s.data, minimal_escaped c = false ∧ attribute_escaped c = false) :
    decode_html (encode_minimal s) = .ok s ∧ decode_html (encode_attribute s) = .ok s := by
  have hne : ∀ c ∈ s.data, c ≠ '&' := fun c hc => not_escaped_ne_amp (h c hc).1
  have hm : s.data.flatMap encode_minimal_char = s.data :=
    flatMap_id_of_id s.data (fun c hc => encode_minimal_char_id (h c hc).1)
  have ha : s.data.flatMap encode_attribute_char = s.data :=
    flatMap_id_of_id s.data (fun c hc => encode_attribute_char_id (h c hc).2)
  constructor
  · unfold decode_html decode_html_buf decode_html_rw encode_minimal
    rw [decodeLoopRW_map_ok]
    dsimp only
    rw [hm]
    have := decodeLoop_no_amp false s.data hne 0 0 [] []
    simpa [initCfg] using this
  · unfold decode_html decode_html_buf decode_html_rw encode_attribute
    rw [decodeLoopRW_map_ok]
    dsimp only
    rw [ha]
    have := decodeLoop_no_amp false s.data hne 0 0 [] []
    simpa [initCfg] using this

/-- Witness for C8: the round-trip applied to the concrete text
`"abc"`. -/
theorem round_trip_witness :
    decode_html (encode_minimal "abc") = .ok "abc" ∧
      decode_html (encode_attribute "abc") = .ok "abc" :=
  round_trip "abc" (by decide)

/-- C9: the `encode_attribute` character mapping.  A character in the
minimal table is replaced by its table entry; otherwise, a character
whose code point is below 256 and either above 127 or not an ASCII
alphanumeric is emitted as `&#x` followed by exactly its two zero-padded
uppercase hex digits and `;`; all other characters pass through
unchanged.  In particular
`encode_attribute "\"No\", he said." = "&quot;No&quot;&#x2C;&#x20;he&#x20;said&#x2E;"`. -/
theorem attribute_encoding_map :
    (∀ (c : Char) (ent : String), get_entity c = some ent →
      encode_attribute_char c = ent.data) ∧
    (∀ c : Char, get_entity c = none → c.toNat < 256 →
      (127 < c.toNat ∨ is_ascii_alnum c = false) →
      encode_attribute_char c =
        ['&', '#', 'x', HEX_DIGITS.getD (c.toNat / 16) '0',
          HEX_DIGITS.getD (c.toNat % 16) '0', ';']) ∧
    (∀ c : Char, get_entity c = none →
      (decide (c.toNat < 256) && (decide (127 < c.toNat) || !is_ascii_alnum c)) = false →
      encode_attribute_char c = [c]) ∧
    encode_attribute "\"No\", he said." = "&quot;No&quot;&#x2C;&#x20;he&#x20;said&#x2E;" := by
  refine ⟨?_, ?_, ?_, by rfl⟩
  · intro c ent hg
    unfold encode_attribute_char
    rw [hg]
  · intro c hg h2 h3
    unfold encode_attribute_char
    rw [hg]
    dsimp only
    rcases h3 with h3 | h3 <;>
      simp [write_hex, h2, h3, Nat.mod_eq_of_lt h2]
  · intro c hg h2
    unfold encode_attribute_char
    rw [hg]
    dsimp only
    rw [h2]
    simp

/-- Witness for C9: the mapping applied at the concrete characters `"`
(table hit), `,` (hex escape) and `a` (unchanged). -/
theorem attribute_encoding_map_witness :
    encode_attribute_char '\x22' = "&quot;".data ∧
    encode_attribute_char ',' = ['&', '#', 'x', '2', 'C', ';'] ∧
    encode_attribute_char 'a' = ['a'] := by
  refine ⟨attribute_encoding_map.1 '\x22' "&quot;" (by rfl), ?_, ?_⟩
  · have := attribute_encoding_map.2.1 ',' (by rfl) (by decide) (Or.inr (by decide))
    simpa using this
  · exact attribute_encoding_map.2.2.1 'a' (by rfl) (by decide)

/-- C10: the string decode entry points read from an in-memory cursor
over the string's valid UTF-8 bytes and write to a `Vec`, so neither
`decode_html` nor `decode_html_sloppy` can return an error of kind
`IoError` or `EncodingError`: every returned error has one of the four
parse kinds. -/
theorem string_decode_error_kinds (s : String) (e : DecodeErr)
    (h : decode_html s = .err e ∨ decode_html_sloppy s = .err e) :
    (e.kind = .UnknownEntity ∨ e.kind = .MalformedNumEscape ∨
      e.kind = .InvalidCharacter ∨ e.kind = .PrematureEnd) ∧
    e.kind ≠ .IoError ∧ e.kind ≠ .EncodingError := by
  have hk : e.kind = .UnknownEntity ∨ e.kind = .MalformedNumEscape ∨
      e.kind = .InvalidCharacter ∨ e.kind = .PrematureEnd := by
    rcases h with h | h
    · unfold decode_html decode_html_buf decode_html_rw at h
      rw [decodeLoopRW_map_ok] at h
      exact decodeLoop_err_kind s.data 0 initCfg e h
    · unfold decode_html_sloppy decode_html_buf_sloppy decode_html_rw at h
      rw [decodeLoopRW_map_ok] at h
      exact decodeLoop_err_kind s.data 0 initCfg e h
  refine ⟨hk, ?_, ?_⟩ <;> rcases hk with h1 | h1 | h1 | h1 <;> simp [h1]

/-- Witness for C10: the theorem applied at the concrete strict decode
of `"&;"`, which errors with `UnknownEntity`. -/
theorem string_decode_error_kinds_witness :
    ((⟨0, DecodeErrKind.UnknownEntity⟩ : DecodeErr).kind = .UnknownEntity ∨
      (⟨0, DecodeErrKind.UnknownEntity⟩ : DecodeErr).kind = .MalformedNumEscape ∨
      (⟨0, DecodeErrKind.UnknownEntity⟩ : DecodeErr).kind = .InvalidCharacter ∨
      (⟨0, DecodeErrKind.UnknownEntity⟩ : DecodeErr).kind = .PrematureEnd) ∧
    (⟨0, DecodeErrKind.UnknownEntity⟩ : DecodeErr).kind ≠ .IoError ∧
    (⟨0, DecodeErrKind.UnknownEntity⟩ : DecodeErr).kind ≠ .EncodingError :=
  string_decode_error_kinds "&;" ⟨0, .UnknownEntity⟩ (Or.inl (by rfl))
